import Mathlib

/-!
Verification of the SILVER-STATUE storefront order-lifecycle and
stock-reservation logic.

The definitions below are a shallow embedding of the JavaScript source:
the Mongoose order model methods (addTimelineEntry, updateStatus,
calculateTotals in the order schema file), the order route handlers
(order creation, cancellation, admin status update, quick buy) and the
payment webhook handlers (handlePaymentSuccess, handlePaymentFailed).
Machine timestamps are modelled as natural numbers passed explicitly,
document ids as natural numbers, and money values as rationals.
-/

namespace SilverStatue

/-- Order status enumeration of the order schema. -/
inductive OrderStatus
  | pending
  | confirmed
  | processing
  | shipped
  | out_for_delivery
  | delivered
  | cancelled
  | returned
  deriving DecidableEq

/-- Payment status enumeration of the payment details sub-document. -/
inductive PaymentStatus
  | pending
  | completed
  | failed
  | refunded
  | partially_refunded
  deriving DecidableEq

/-- The statusTransitions table hard-coded in updateStatus
(order schema file, lines 420-429). -/
def statusTransitions : OrderStatus → List OrderStatus
  | .pending => [.confirmed, .cancelled]
  | .confirmed => [.processing, .cancelled]
  | .processing => [.shipped, .cancelled]
  | .shipped => [.out_for_delivery, .delivered]
  | .out_for_delivery => [.delivered]
  | .delivered => [.returned]
  | .cancelled => []
  | .returned => []

/-- A timeline entry: status, message, timestamp, updatedBy
(order schema, timeline sub-document). -/
structure TimelineEntry where
  status : OrderStatus
  message : String
  timestamp : Nat
  updatedBy : Option Nat
  deriving DecidableEq

/-- Tracking sub-document fields stamped by updateStatus. -/
structure Tracking where
  shippedAt : Option Nat := none
  deliveredAt : Option Nat := none
  deriving DecidableEq

/-- Cancellation sub-document of the order schema. -/
structure Cancellation where
  reason : Option String := none
  cancelledAt : Option Nat := none
  cancelledBy : Option Nat := none
  deriving DecidableEq

/-- Payment details sub-document of the order schema. -/
structure PaymentDetails where
  method : String
  status : PaymentStatus
  paymentIntentId : Option String := none
  transactionId : Option String := none
  paidAt : Option Nat := none
  deriving DecidableEq

/-- An order line item: product reference, quantity, unit price and
line total, as built by the order creation handler. -/
structure OrderItem where
  product : Nat
  quantity : Nat
  price : ℚ
  totalPrice : ℚ
  deriving DecidableEq

/-- Order summary totals sub-document. -/
structure OrderSummary where
  subtotal : ℚ
  tax : ℚ
  shipping : ℚ
  discount : ℚ
  total : ℚ
  deriving DecidableEq

/-- The order document: the fields of the order schema that the
lifecycle logic reads or writes. -/
structure Order where
  user : Nat
  items : List OrderItem
  orderSummary : OrderSummary
  orderStatus : OrderStatus
  paymentDetails : PaymentDetails
  timeline : List TimelineEntry
  tracking : Tracking
  cancellation : Cancellation
  deriving DecidableEq

/-- The addTimelineEntry order method (order schema file, lines 407-416):
pushes a timeline entry and sets orderStatus to the entry status. -/
def Order.addTimelineEntry (o : Order) (status : OrderStatus) (message : String)
    (updatedBy : Option Nat) (now : Nat) : Order :=
  { o with
      timeline := o.timeline ++ [⟨status, message, now, updatedBy⟩]
      orderStatus := status }

/-- The updateStatus order method (order schema file, lines 419-455):
throws when the target is not in the allowed set of the current status,
with a message carrying both statuses (modelled as an error value holding
the pair of current and requested status); otherwise sets orderStatus,
appends a timeline entry, and stamps shippedAt, deliveredAt or the
cancellation fields for the corresponding targets. -/
def Order.updateStatus (o : Order) (newStatus : OrderStatus) (message : String)
    (updatedBy : Option Nat) (now : Nat) : Except (OrderStatus × OrderStatus) Order :=
  let allowedTransitions := statusTransitions o.orderStatus
  if newStatus ∈ allowedTransitions then
    let o1 : Order := { o with orderStatus := newStatus }
    let o2 := o1.addTimelineEntry newStatus message updatedBy now
    let o3 : Order :=
      match newStatus with
      | .shipped => { o2 with tracking := { o2.tracking with shippedAt := some now } }
      | .delivered => { o2 with tracking := { o2.tracking with deliveredAt := some now } }
      | .cancelled =>
          { o2 with cancellation :=
              { o2.cancellation with cancelledAt := some now, cancelledBy := updatedBy } }
      | _ => o2
    .ok o3
  else
    .error (o.orderStatus, newStatus)

/-- The product document: the fields of the product schema that the
order logic reads or writes (identity, name, price, isActive flag and
the stock sub-document with its quantity and isInStock flag). -/
structure Product where
  id : Nat
  name : String
  price : ℚ
  isActive : Bool
  stockQuantity : ℤ
  isInStock : Bool
  deriving DecidableEq

/-- The pre-save hook of the product schema (Product.js lines 224-227):
on save, isInStock is recomputed as stock quantity strictly positive.
Updates issued through findByIdAndUpdate bypass this hook. -/
def Product.applySaveHook (p : Product) : Product :=
  { p with isInStock := decide (p.stockQuantity > 0) }

/-- A cart line: product reference, quantity and add-time price snapshot
(cart schema; the cart routes keep at most one line per product). -/
structure CartItem where
  productId : Nat
  quantity : Nat
  price : ℚ
  deriving DecidableEq

/-- Applies f to the first element satisfying p, leaving the rest alone.
This models a findOne or findByIdAndUpdate document update: the store
locates the single matching document and rewrites it in place. -/
def updateFirst (p : α → Bool) (f : α → α) : List α → List α
  | [] => []
  | a :: as => if p a then f a :: as else a :: updateFirst p f as

/-- The findOne or findById product lookup used by the order handlers,
modelled over the product collection. -/
def findProduct (products : List Product) (pid : Nat) : Option Product :=
  products.find? (fun p => p.id == pid)

/-- A findByIdAndUpdate with an inc operator on the stock quantity
(order routes, stock decrement at order creation and stock restore at
cancellation). Only the quantity field is written: the inc update goes
through the query API, so the pre-save hook that maintains isInStock
does not run. -/
def incStockQuantity (products : List Product) (pid : Nat) (delta : ℤ) : List Product :=
  updateFirst (fun p => p.id == pid)
    (fun p => { p with stockQuantity := p.stockQuantity + delta }) products

/-- The shared storage state seen by the order routes: the product
collection, the requesting user cart lines (already populated) and the
order collection. -/
structure StoreState where
  products : List Product
  cartItems : List CartItem
  orders : List Order
  deriving DecidableEq

/-- Error outcomes of the order creation handler. -/
inductive PlaceOrderError
  | cartEmpty
  | productUnavailable
  | insufficientStock (productName : String) (available : ℤ)
  deriving DecidableEq

/-- The cart validation loop of the order creation handler (order routes,
lines 1398-1439): walks the cart lines in order; a missing or inactive
product breaks out and yields the products-no-longer-available error; a
line whose product is flagged out of stock or whose quantity exceeds the
available quantity returns the insufficient-stock error naming the
product and its available quantity; otherwise the line is turned into an
order item whose line total is price times quantity. -/
def buildOrderItems (products : List Product) : List CartItem → Except PlaceOrderError (List OrderItem)
  | [] => .ok []
  | ci :: rest =>
    match findProduct products ci.productId with
    | none => .error .productUnavailable
    | some p =>
      if !p.isActive then .error .productUnavailable
      else if !p.isInStock || p.stockQuantity < (ci.quantity : ℤ) then
        .error (.insufficientStock p.name p.stockQuantity)
      else
        (buildOrderItems products rest).map
          (fun items =>
            { product := p.id, quantity := ci.quantity, price := ci.price
              totalPrice := ci.price * (ci.quantity : ℚ) } :: items)

/-- The POST order creation handler (order routes, lines 1382-1503):
rejects an empty cart; validates every cart line against current stock;
computes the order summary inline (subtotal as the sum of line totals,
tax as the rounded 18 percent of the subtotal, shipping free from a
subtotal of 2000 and a flat 200 below, discount fixed at 0, total as
their sum); creates the order with a single initial pending timeline
entry; then decrements each ordered product stock through an inc update
and clears the cart. All writes happen only after validation succeeded,
so every error path leaves the state untouched. -/
def placeOrder (st : StoreState) (userId : Nat) (method : String) (now : Nat) :
    Except PlaceOrderError (StoreState × Order) :=
  if st.cartItems.isEmpty then .error .cartEmpty
  else
    match buildOrderItems st.products st.cartItems with
    | .error e => .error e
    | .ok orderItems =>
      let subtotal : ℚ := orderItems.foldl (fun s i => s + i.totalPrice) 0
      let tax : ℚ := ((round (subtotal * (18 / 100 : ℚ)) : ℤ) : ℚ)
      let shipping : ℚ := if subtotal ≥ 2000 then 0 else 200
      let total : ℚ := subtotal + tax + shipping
      let order : Order :=
        { user := userId
          items := orderItems
          orderSummary :=
            { subtotal := subtotal, tax := tax, shipping := shipping
              discount := 0, total := total }
          orderStatus := .pending
          paymentDetails := { method := method, status := .pending }
          timeline := [⟨.pending, "Order placed successfully", now, some userId⟩]
          tracking := {}
          cancellation := {} }
      let products1 := st.cartItems.foldl
        (fun ps ci => incStockQuantity ps ci.productId (-(ci.quantity : ℤ))) st.products
      .ok ({ products := products1, cartItems := [], orders := st.orders ++ [order] }, order)

/-- Error outcomes of the cancel handler. -/
inductive CancelError
  | notFound
  | accessDenied
  | cannotCancel (current : OrderStatus)
  deriving DecidableEq

/-- The statuses from which the cancel route allows cancellation
(order routes, line 1587). -/
def cancellableStatuses : List OrderStatus := [.pending, .confirmed]

/-- The PUT cancel handler (order routes, lines 1568-1626): looks the
order up (modelled by its index in the order collection), rejects a
requester who does not own it, rejects any current status outside the
cancellable set with an error naming the current status, and otherwise
sets the status to cancelled, records the cancellation metadata, appends
a cancelled timeline entry and restores each line item quantity onto the
corresponding product stock through inc updates. -/
def cancelOrder (st : StoreState) (orderId : Nat) (userId : Nat)
    (reason : Option String) (now : Nat) : Except CancelError StoreState :=
  match st.orders.get? orderId with
  | none => .error .notFound
  | some order =>
    if order.user ≠ userId then .error .accessDenied
    else if order.orderStatus ∉ cancellableStatuses then
      .error (.cannotCancel order.orderStatus)
    else
      let order1 : Order :=
        { order with
            orderStatus := .cancelled
            cancellation :=
              { reason := some (reason.getD "Cancelled by customer")
                cancelledAt := some now
                cancelledBy := some userId }
            timeline := order.timeline ++
              [⟨.cancelled, reason.getD "Order cancelled by customer", now, some userId⟩] }
      let products1 := order.items.foldl
        (fun ps it => incStockQuantity ps it.product (it.quantity : ℤ)) st.products
      .ok { st with orders := st.orders.set orderId order1, products := products1 }

/-- The calculateTotals order method (order schema file, lines 458-469):
recomputes the summary from the line totals, with tax the rounded 18
percent of the subtotal, free shipping from a subtotal of 2000 and a
flat 200 below, and the total as subtotal plus tax plus shipping minus
the stored discount. -/
def Order.calculateTotals (o : Order) : Order :=
  let subtotal : ℚ := o.items.foldl (fun s i => s + i.totalPrice) 0
  let tax : ℚ := ((round (subtotal * (18 / 100 : ℚ)) : ℤ) : ℚ)
  let shipping : ℚ := if subtotal ≥ 2000 then 0 else 200
  let total : ℚ := subtotal + tax + shipping - o.orderSummary.discount
  { o with orderSummary :=
      { o.orderSummary with
          subtotal := subtotal, tax := tax, shipping := shipping, total := total } }

/-- True when the order is the document the payment webhook findOne
matches: its stored payment intent id equals the incoming one. -/
def matchesIntent (pid : String) (o : Order) : Bool :=
  o.paymentDetails.paymentIntentId == some pid

/-- The mutation block of handlePaymentSuccess (payment routes, lines
1158-1172), applied to the matched order when its payment status is not
yet completed: marks the payment completed, stores the transaction id
and paid-at time, and, only when the order is still pending, moves it to
confirmed with a confirmed timeline entry. -/
def paymentSuccessBody (o : Order) (pid : String) (now : Nat) : Order :=
  let o1 : Order :=
    { o with paymentDetails :=
        { o.paymentDetails with
            status := .completed, transactionId := some pid, paidAt := some now } }
  if o1.orderStatus = .pending then
    { o1 with
        orderStatus := .confirmed
        timeline := o1.timeline ++ [⟨.confirmed, "Payment completed via webhook", now, none⟩] }
  else o1

/-- The guarded per-order update of handlePaymentSuccess: the handler
only touches the matched order when its payment status is not already
completed (payment routes, line 1158). -/
def paymentSuccessUpdate (o : Order) (pid : String) (now : Nat) : Order :=
  if o.paymentDetails.status = .completed then o else paymentSuccessBody o pid now

/-- The handlePaymentSuccess webhook handler (payment routes, lines
1152-1178) over the order collection: findOne by payment intent id,
then the guarded update saved back in place; no match means no change. -/
def handlePaymentSuccess (orders : List Order) (pid : String) (now : Nat) : List Order :=
  updateFirst (matchesIntent pid) (fun o => paymentSuccessUpdate o pid now) orders

/-- The mutation block of handlePaymentFailed (payment routes, lines
1187-1193), applied to the matched order: sets the payment status to
failed and appends a timeline entry carrying the unchanged order
status. -/
def paymentFailedBody (o : Order) (now : Nat) : Order :=
  { o with
      paymentDetails := { o.paymentDetails with status := .failed }
      timeline := o.timeline ++ [⟨o.orderStatus, "Payment failed", now, none⟩] }

/-- The handlePaymentFailed webhook handler (payment routes, lines
1181-1201) over the order collection. -/
def handlePaymentFailed (orders : List Order) (pid : String) (now : Nat) : List Order :=
  updateFirst (matchesIntent pid) (fun o => paymentFailedBody o now) orders

/-- Error outcomes of the quick-buy handler. -/
inductive QuickBuyError
  | notFound
  | outOfStock
  | invalidPricing
  deriving DecidableEq

/-- The client-submitted part of a quick-buy request that the pricing
verification reads: product reference, quantity, and the submitted
subtotal, shipping and total. -/
structure QuickBuyRequest where
  productId : Nat
  quantity : Nat
  subtotal : ℚ
  shipping : ℚ
  total : ℚ
  deriving DecidableEq

/-- The order record created by the quick-buy handler (the summary
fields it stores). -/
structure QuickBuyOrder where
  productId : Nat
  quantity : Nat
  price : ℚ
  itemsTotal : ℚ
  shippingCost : ℚ
  totalAmount : ℚ
  deriving DecidableEq

/-- The POST quick-buy handler (order routes, lines 1841-1956): looks
the product up, rejects a missing product, rejects an out-of-stock flag
or a quantity above the available stock, recomputes the expected pricing
(subtotal as price times quantity, shipping free from 5000 and a flat
199 below, total as their sum) and rejects any submitted subtotal,
shipping or total further than one hundredth from its expected value;
on success creates the quick-buy order and decrements the product stock,
this time also rewriting isInStock from the pre-read quantity. -/
def quickBuy (products : List Product) (r : QuickBuyRequest) :
    Except QuickBuyError (List Product × QuickBuyOrder) :=
  match findProduct products r.productId with
  | none => .error .notFound
  | some p =>
    if !p.isInStock || p.stockQuantity < (r.quantity : ℤ) then .error .outOfStock
    else
      let expectedSubtotal : ℚ := p.price * (r.quantity : ℚ)
      let expectedShipping : ℚ := if expectedSubtotal ≥ 5000 then 0 else 199
      let expectedTotal : ℚ := expectedSubtotal + expectedShipping
      if |r.subtotal - expectedSubtotal| > 1 / 100 ∨
          |r.shipping - expectedShipping| > 1 / 100 ∨
          |r.total - expectedTotal| > 1 / 100 then
        .error .invalidPricing
      else
        let order : QuickBuyOrder :=
          { productId := p.id, quantity := r.quantity, price := p.price
            itemsTotal := expectedSubtotal, shippingCost := expectedShipping
            totalAmount := expectedTotal }
        let products1 := updateFirst (fun q => q.id == r.productId)
          (fun q =>
            { q with
                stockQuantity := q.stockQuantity - (r.quantity : ℤ)
                isInStock := decide (p.stockQuantity - (r.quantity : ℤ) > 0) })
          products
        .ok (products1, order)

/-- A stock-mutating storefront operation: an order placement over a
given cart, or a cancellation of a stored order. -/
inductive StoreOp
  | place (userId : Nat) (cart : List CartItem) (method : String) (now : Nat)
  | cancel (orderId : Nat) (userId : Nat) (reason : Option String) (now : Nat)

/-- Runs one operation against the state; a failed operation leaves the
state unchanged, as every error path in the handlers returns before any
write. -/
def stepOp (st : StoreState) : StoreOp → StoreState
  | .place u cart m t =>
    match placeOrder { st with cartItems := cart } u m t with
    | .ok (st1, _) => st1
    | .error _ => st
  | .cancel oid u r t =>
    match cancelOrder st oid u r t with
    | .ok st1 => st1
    | .error _ => st

/-- Runs a sequence of storefront operations. -/
def runOps (st : StoreState) (ops : List StoreOp) : StoreState :=
  ops.foldl stepOp st

/-- Cart well-formedness maintained by the cart routes: at most one
line per product (add-to-cart merges into an existing line). A cancel
operation needs no side condition. -/
def opWellFormed : StoreOp → Prop
  | .place _ cart _ _ => (cart.map CartItem.productId).Nodup
  | .cancel _ _ _ _ => True

instance : ∀ op : StoreOp, Decidable (opWellFormed op) := by
  intro op
  cases op <;> simp [opWellFormed] <;> infer_instance

/-- An order value with the given status and everything else fixed,
used to instantiate the theorems on concrete inputs. -/
def baseOrder (status : OrderStatus) : Order :=
  { user := 1
    items := []
    orderSummary := { subtotal := 0, tax := 0, shipping := 0, discount := 0, total := 0 }
    orderStatus := status
    paymentDetails := { method := "stripe", status := .pending }
    timeline := []
    tracking := {}
    cancellation := {} }

/-- C1: updateStatus succeeds exactly when the target status is in the
allowed set of the current status, where the allowed sets are exactly
the transition table of section 4.1; otherwise it fails with an error
carrying the current and the requested status (the throw precedes every
write, so the order is left unchanged); in particular an order at
shipped receiving target processing fails with that pair. -/
theorem updateStatus_allowed_iff (o : Order) (s : OrderStatus) (msg : String)
    (actor : Option Nat) (now : Nat) :
    ((∃ o1, o.updateStatus s msg actor now = .ok o1) ↔ s ∈ statusTransitions o.orderStatus)
    ∧ (∀ cur target : OrderStatus, target ∈ statusTransitions cur ↔
        (cur, target) ∈ ([(.pending, .confirmed), (.pending, .cancelled),
          (.confirmed, .processing), (.confirmed, .cancelled),
          (.processing, .shipped), (.processing, .cancelled),
          (.shipped, .out_for_delivery), (.shipped, .delivered),
          (.out_for_delivery, .delivered), (.delivered, .returned)] :
          List (OrderStatus × OrderStatus)))
    ∧ (s ∉ statusTransitions o.orderStatus →
        o.updateStatus s msg actor now = .error (o.orderStatus, s))
    ∧ (o.orderStatus = .shipped →
        o.updateStatus .processing msg actor now = .error (.shipped, .processing)) := by
  have herr : ∀ t : OrderStatus, t ∉ statusTransitions o.orderStatus →
      o.updateStatus t msg actor now = .error (o.orderStatus, t) := by
    intro t hmem
    unfold Order.updateStatus
    rw [if_neg hmem]
  refine ⟨⟨?_, ?_⟩, ?_, herr s, ?_⟩
  · rintro ⟨o1, h⟩
    by_contra hmem
    rw [herr s hmem] at h
    exact Except.noConfusion h
  · intro hmem
    unfold Order.updateStatus
    rw [if_pos hmem]
    exact ⟨_, rfl⟩
  · intro cur target
    cases cur <;> cases target <;> decide
  · intro hst
    have hmem : OrderStatus.processing ∉ statusTransitions o.orderStatus := by
      rw [hst]; decide
    rw [herr _ hmem, hst]

/-- Witness for C1: a concrete order at shipped rejects both pending
and processing targets with the error pair, and accepts delivered. -/
theorem updateStatus_allowed_iff_witness :
    (baseOrder .shipped).updateStatus .pending "msg" none 0 = .error (.shipped, .pending)
    ∧ (baseOrder .shipped).updateStatus .processing "msg" none 0
        = .error (.shipped, .processing) :=
  ⟨(updateStatus_allowed_iff (baseOrder .shipped) .pending "msg" none 0).2.2.1 (by decide),
    (updateStatus_allowed_iff (baseOrder .shipped) .processing "msg" none 0).2.2.2 rfl⟩

/-- Inversion of a successful cart validation: every produced item has
its line total equal to price times quantity, and every cart line passed
the availability and stock checks against the product collection. -/
theorem buildOrderItems_ok (ps : List Product) :
    ∀ (cart : List CartItem) (items : List OrderItem),
      buildOrderItems ps cart = .ok items →
      (∀ it ∈ items, it.totalPrice = it.price * (it.quantity : ℚ))
      ∧ (∀ ci ∈ cart, ∃ p, findProduct ps ci.productId = some p ∧
          p.isActive = true ∧ p.isInStock = true ∧ (ci.quantity : ℤ) ≤ p.stockQuantity) := by
  intro cart
  induction cart with
  | nil =>
    intro items h
    simp only [buildOrderItems, Except.ok.injEq] at h
    subst h
    exact ⟨by simp, by simp⟩
  | cons ci rest ih =>
    intro items h
    unfold buildOrderItems at h
    split at h
    · exact absurd h (by simp)
    · rename_i p hfind
      split at h
      · exact absurd h (by simp)
      · rename_i hact
        split at h
        · exact absurd h (by simp)
        · rename_i hstock
          cases hrec : buildOrderItems ps rest with
          | error e => rw [hrec] at h; exact absurd h (by simp [Except.map])
          | ok tl =>
            rw [hrec] at h
            simp only [Except.map, Except.ok.injEq] at h
            subst h
            obtain ⟨ih1, ih2⟩ := ih tl hrec
            have hactiveTrue : p.isActive = true := by
              simpa using hact
            have hstock1 : p.isInStock = true ∧ (ci.quantity : ℤ) ≤ p.stockQuantity := by
              simp only [Bool.or_eq_true, Bool.not_eq_true', decide_eq_true_eq, not_or,
                not_lt, Bool.not_eq_false] at hstock
              exact ⟨hstock.1, hstock.2⟩
            constructor
            · intro it hit
              rcases List.mem_cons.mp hit with rfl | hmem
              · rfl
              · exact ih1 it hmem
            · intro cj hcj
              rcases List.mem_cons.mp hcj with rfl | hmem
              · exact ⟨p, hfind, hactiveTrue, hstock1.1, hstock1.2⟩
              · exact ih2 cj hmem

/-- Inversion of a successful order placement: the produced order and
state are exactly the values the handler constructs. -/
theorem placeOrder_ok_inv (st : StoreState) (u : Nat) (m : String) (t : Nat)
    (st1 : StoreState) (ord : Order)
    (h : placeOrder st u m t = .ok (st1, ord)) :
    buildOrderItems st.products st.cartItems = .ok ord.items
    ∧ ord.orderSummary.subtotal = ord.items.foldl (fun s i => s + i.totalPrice) 0
    ∧ ord.orderSummary.tax = ((round (ord.orderSummary.subtotal * (18 / 100 : ℚ)) : ℤ) : ℚ)
    ∧ ord.orderSummary.shipping = (if ord.orderSummary.subtotal ≥ 2000 then (0 : ℚ) else 200)
    ∧ ord.orderSummary.discount = 0
    ∧ ord.orderSummary.total =
        ord.orderSummary.subtotal + ord.orderSummary.tax + ord.orderSummary.shipping
    ∧ ord.orderStatus = .pending
    ∧ ord.timeline = [⟨.pending, "Order placed successfully", t, some u⟩]
    ∧ st1.products = st.cartItems.foldl
        (fun ps ci => incStockQuantity ps ci.productId (-(ci.quantity : ℤ))) st.products
    ∧ st1.cartItems = []
    ∧ st1.orders = st.orders ++ [ord] := by
  unfold placeOrder at h
  split at h
  · exact absurd h (by simp)
  · cases hb : buildOrderItems st.products st.cartItems with
    | error e => rw [hb] at h; exact absurd h (by simp)
    | ok items =>
      rw [hb] at h
      simp only [Except.ok.injEq, Prod.mk.injEq] at h
      obtain ⟨hst1, hord⟩ := h
      subst hst1
      subst hord
      exact ⟨rfl, rfl, rfl, rfl, rfl, rfl, rfl, rfl, rfl, rfl, rfl⟩

/-- A concrete catalog product: id 1, price 1000, five in stock. -/
def exProduct : Product :=
  { id := 1, name := "Silver Idol", price := 1000, isActive := true
    stockQuantity := 5, isInStock := true }

/-- A concrete store state whose cart holds two units of the
1000-priced product. -/
def exState : StoreState :=
  { products := [exProduct]
    cartItems := [{ productId := 1, quantity := 2, price := 1000 }]
    orders := [] }

/-- The order the creation handler builds from exState. -/
def exOrder : Order :=
  { user := 7
    items := [{ product := 1, quantity := 2, price := 1000, totalPrice := 2000 }]
    orderSummary := { subtotal := 2000, tax := 360, shipping := 0, discount := 0, total := 2360 }
    orderStatus := .pending
    paymentDetails := { method := "cod", status := .pending }
    timeline := [⟨.pending, "Order placed successfully", 3, some 7⟩]
    tracking := {}
    cancellation := {} }

/-- The store state after placing the order from exState. -/
def exState1 : StoreState :=
  { products := [{ exProduct with stockQuantity := 3 }]
    cartItems := []
    orders := [exOrder] }

/-- Evaluation of the order creation handler on the concrete example:
a cart of two units at 1000 yields subtotal 2000, tax 360, free
shipping and total 2360, and decrements the stock from 5 to 3. -/
theorem exState_place : placeOrder exState 7 "cod" 3 = .ok (exState1, exOrder) := by
  simp only [placeOrder, buildOrderItems, findProduct, incStockQuantity, updateFirst,
    exState, exState1, exOrder, exProduct, List.find?, List.foldl, List.isEmpty,
    Except.map, StoreState.mk.injEq, Order.mk.injEq, OrderSummary.mk.injEq,
    Product.mk.injEq, OrderItem.mk.injEq]
  norm_num

/-- C4: every successfully placed order has line totals equal to price
times quantity, subtotal the sum of line totals, tax the rounded 18
percent of the subtotal, shipping 0 from a subtotal of 2000 and 200
below, and total equal to subtotal plus tax plus shipping minus
discount; on the concrete cart of two units at 1000 this gives subtotal
2000, tax 360, shipping 0 and total 2360. -/
theorem placeOrder_summary (st : StoreState) (u : Nat) (m : String) (t : Nat)
    (st1 : StoreState) (ord : Order)
    (h : placeOrder st u m t = .ok (st1, ord)) :
    (∀ it ∈ ord.items, it.totalPrice = it.price * (it.quantity : ℚ))
    ∧ ord.orderSummary.subtotal = (ord.items.map OrderItem.totalPrice).sum
    ∧ ord.orderSummary.tax = ((round (ord.orderSummary.subtotal * (18 / 100 : ℚ)) : ℤ) : ℚ)
    ∧ ord.orderSummary.shipping = (if ord.orderSummary.subtotal ≥ 2000 then (0 : ℚ) else 200)
    ∧ ord.orderSummary.total = ord.orderSummary.subtotal + ord.orderSummary.tax
        + ord.orderSummary.shipping - ord.orderSummary.discount
    ∧ (placeOrder exState 7 "cod" 3).map (fun r => r.2.orderSummary)
        = .ok { subtotal := 2000, tax := 360, shipping := 0, discount := 0, total := 2360 } := by
  obtain ⟨hb, hsub, htax, hship, hdisc, htot, -, -, -, -, -⟩ :=
    placeOrder_ok_inv st u m t st1 ord h
  refine ⟨(buildOrderItems_ok st.products st.cartItems ord.items hb).1, ?_, htax, hship,
    ?_, ?_⟩
  · rw [hsub, List.sum_eq_foldl, List.foldl_map]
  · rw [htot, hdisc]
    ring
  · rw [exState_place]
    rfl

/-- Witness for C4: the summary equations instantiated on the concrete
successful placement from exState. -/
theorem placeOrder_summary_witness :
    (∀ it ∈ exOrder.items, it.totalPrice = it.price * (it.quantity : ℚ))
    ∧ exOrder.orderSummary.subtotal = (exOrder.items.map OrderItem.totalPrice).sum
    ∧ exOrder.orderSummary.tax
        = ((round (exOrder.orderSummary.subtotal * (18 / 100 : ℚ)) : ℤ) : ℚ)
    ∧ exOrder.orderSummary.shipping
        = (if exOrder.orderSummary.subtotal ≥ 2000 then (0 : ℚ) else 200)
    ∧ exOrder.orderSummary.total = exOrder.orderSummary.subtotal + exOrder.orderSummary.tax
        + exOrder.orderSummary.shipping - exOrder.orderSummary.discount
    ∧ (placeOrder exState 7 "cod" 3).map (fun r => r.2.orderSummary)
        = .ok { subtotal := 2000, tax := 360, shipping := 0, discount := 0, total := 2360 } :=
  placeOrder_summary exState 7 "cod" 3 exState1 exOrder exState_place

/-- True when the cart line requests more than the available stock of
its (existing) product. -/
def offendingLine (products : List Product) (ci : CartItem) : Bool :=
  match findProduct products ci.productId with
  | some p => decide (p.stockQuantity < (ci.quantity : ℤ))
  | none => false

/-- The first cart line requesting more than the available stock. -/
def firstOffending (st : StoreState) : Option CartItem :=
  st.cartItems.find? (offendingLine st.products)

/-- When every cart line references an existing, active, in-stock
product and some line requests more than the available quantity, the
validation loop fails with the insufficient-stock error naming the
product of the first such line and its available quantity. -/
theorem buildOrderItems_firstOffending (ps : List Product) :
    ∀ cart : List CartItem,
      (∀ ci ∈ cart, ∃ p, findProduct ps ci.productId = some p ∧
        p.isActive = true ∧ p.isInStock = true) →
      ∀ ci1, cart.find? (offendingLine ps) = some ci1 →
        ∃ p1, findProduct ps ci1.productId = some p1 ∧
          p1.stockQuantity < (ci1.quantity : ℤ) ∧
          buildOrderItems ps cart = .error (.insufficientStock p1.name p1.stockQuantity) := by
  intro cart
  induction cart with
  | nil => intro _ ci1 h1; exact absurd h1 (by simp)
  | cons ci rest ih =>
    intro hall ci1 h1
    obtain ⟨p, hfind, hact, hstk⟩ := hall ci (List.mem_cons_self ci rest)
    by_cases hoff : offendingLine ps ci = true
    · rw [List.find?_cons_of_pos _ hoff] at h1
      cases h1
      have hlt : p.stockQuantity < (ci.quantity : ℤ) := by
        unfold offendingLine at hoff
        rw [hfind] at hoff
        simpa using hoff
      refine ⟨p, hfind, hlt, ?_⟩
      unfold buildOrderItems
      rw [hfind]
      simp [hact, hstk, hlt]
    · rw [List.find?_cons_of_neg _ hoff] at h1
      obtain ⟨p1, hfind1, hlt1, hrec⟩ :=
        ih (fun cj hcj => hall cj (List.mem_cons_of_mem ci hcj)) ci1 h1
      have hnlt : ¬p.stockQuantity < (ci.quantity : ℤ) := by
        unfold offendingLine at hoff
        rw [hfind] at hoff
        simpa using hoff
      refine ⟨p1, hfind1, hlt1, ?_⟩
      unfold buildOrderItems
      rw [hfind]
      simp [hact, hstk, hnlt, hrec, Except.map]

/-- C2 (amended): when some cart line requests more than the available
stock, order placement never succeeds, and the handler returns before
any write, leaving products, cart and orders unchanged; the failure is
the insufficient-stock error naming the first offending product and its
available quantity provided every cart line references an existing,
active product whose in-stock flag is set (a missing, inactive or
out-of-stock-flagged line can preempt with a different error). -/
theorem placeOrder_insufficientStock (st : StoreState) (u : Nat) (m : String) (t : Nat) :
    ((∃ ci ∈ st.cartItems, ∃ p, findProduct st.products ci.productId = some p ∧
        p.stockQuantity < (ci.quantity : ℤ)) → ∀ r, placeOrder st u m t ≠ .ok r)
    ∧ ((∀ ci ∈ st.cartItems, ∃ p, findProduct st.products ci.productId = some p ∧
          p.isActive = true ∧ p.isInStock = true) →
        ∀ ci1, firstOffending st = some ci1 →
          ∃ p1, findProduct st.products ci1.productId = some p1 ∧
            p1.stockQuantity < (ci1.quantity : ℤ) ∧
            placeOrder st u m t = .error (.insufficientStock p1.name p1.stockQuantity))
    ∧ (∀ u2 cart m2 t2, (∃ e, placeOrder { st with cartItems := cart } u2 m2 t2 = .error e) →
        stepOp st (.place u2 cart m2 t2) = st) := by
  refine ⟨?_, ?_, ?_⟩
  · rintro ⟨ci, hci, p, hfind, hlt⟩ ⟨st1, ord⟩ hok
    obtain ⟨hb, -⟩ := placeOrder_ok_inv st u m t st1 ord hok
    obtain ⟨p1, hfind1, -, -, hle⟩ :=
      (buildOrderItems_ok st.products st.cartItems ord.items hb).2 ci hci
    rw [hfind] at hfind1
    cases hfind1
    omega
  · intro hall ci1 h1
    obtain ⟨p1, hfind1, hlt1, hrec⟩ :=
      buildOrderItems_firstOffending st.products st.cartItems hall ci1 h1
    refine ⟨p1, hfind1, hlt1, ?_⟩
    unfold placeOrder
    rw [hrec]
    have hne : st.cartItems ≠ [] := by
      intro hnil
      unfold firstOffending at h1
      rw [hnil] at h1
      exact absurd h1 (by simp)
    simp [List.isEmpty_eq_false.mpr hne]
  · rintro u2 cart m2 t2 ⟨e, he⟩
    simp [stepOp, he]

/-- An inactive, out-of-stock product used by the C2 counterexample. -/
def c2Product : Product :=
  { id := 1
    name := "Ghost"
    price := 100
    isActive := false
    stockQuantity := 0
    isInStock := false }

/-- A store whose single cart line references the inactive c2Product
with a quantity above its stock. -/
def c2State : StoreState :=
  { products := [c2Product]
    cartItems := [{ productId := 1, quantity := 2, price := 100 }]
    orders := [] }

/-- C2 counterexample: the cart of c2State has a line whose quantity
exceeds the available stock, yet order placement fails with the
products-no-longer-available error rather than any insufficient-stock
error. -/
theorem placeOrder_insufficientStock_cex :
    (∃ ci ∈ c2State.cartItems, ∃ p, findProduct c2State.products ci.productId = some p ∧
      p.stockQuantity < (ci.quantity : ℤ))
    ∧ placeOrder c2State 7 "cod" 3 = .error .productUnavailable
    ∧ ∀ name avail,
        (PlaceOrderError.productUnavailable : PlaceOrderError)
          ≠ .insufficientStock name avail := by
  refine ⟨⟨{ productId := 1, quantity := 2, price := 100 }, by simp [c2State], ?_⟩, rfl,
    fun name avail h => nomatch h⟩
  exact ⟨c2Product, rfl, by norm_num [c2Product]⟩

/-- An active in-stock product with a single unit available, used by
the C2 witness. -/
def c2bProduct : Product :=
  { id := 1
    name := "Low"
    price := 100
    isActive := true
    stockQuantity := 1
    isInStock := true }

/-- A store whose products are all active and in-stock-flagged but whose
cart requests more than the available quantity. -/
def c2bState : StoreState :=
  { products := [c2bProduct]
    cartItems := [{ productId := 1, quantity := 2, price := 100 }]
    orders := [] }

/-- Witness for C2 (amended): on c2bState the placement fails with the
insufficient-stock error naming the offending product and available
quantity 1, never succeeds, and a failing placement leaves the state
unchanged. -/
theorem placeOrder_insufficientStock_witness :
    (∀ r, placeOrder c2bState 7 "cod" 3 ≠ .ok r)
    ∧ placeOrder c2bState 7 "cod" 3 = .error (.insufficientStock "Low" 1)
    ∧ stepOp c2bState (.place 7 c2bState.cartItems "cod" 3) = c2bState := by
  have hoff : firstOffending c2bState = some { productId := 1, quantity := 2, price := 100 } := by
    simp [firstOffending, c2bState, offendingLine, findProduct, List.find?, c2bProduct]
  have hall : ∀ ci ∈ c2bState.cartItems, ∃ p,
      findProduct c2bState.products ci.productId = some p ∧
      p.isActive = true ∧ p.isInStock = true := by
    intro ci hci
    simp only [c2bState, List.mem_singleton] at hci
    subst hci
    exact ⟨c2bProduct, rfl, rfl, rfl⟩
  have hmain := placeOrder_insufficientStock c2bState 7 "cod" 3
  obtain ⟨p1, hp1, hlt1, herr⟩ := hmain.2.1 hall _ hoff
  have hp1v : p1 = c2bProduct := by
    have : some p1 = some c2bProduct := by
      rw [← hp1]
      rfl
    exact Option.some.inj this
  constructor
  · refine hmain.1 ?_
    exact ⟨{ productId := 1, quantity := 2, price := 100 }, by simp [c2bState],
      p1, hp1, hlt1⟩
  constructor
  · rw [herr, hp1v]
    rfl
  · exact hmain.2.2 7 c2bState.cartItems "cod" 3
      ⟨.insufficientStock p1.name p1.stockQuantity, herr⟩

/-- Reduction of updateFirst on a matching head. -/
theorem updateFirst_cons_pos {p : α → Bool} {f : α → α} {a : α} {as : List α}
    (h : p a = true) : updateFirst p f (a :: as) = f a :: as := by
  simp [updateFirst, h]

/-- Reduction of updateFirst on a non-matching head. -/
theorem updateFirst_cons_neg {p : α → Bool} {f : α → α} {a : α} {as : List α}
    (h : p a = false) : updateFirst p f (a :: as) = a :: updateFirst p f as := by
  simp [updateFirst, h]

/-- Reduction of the product lookup on a matching head. -/
theorem findProduct_cons_pos {p : Product} {ps : List Product} {pid : Nat}
    (h : (p.id == pid) = true) : findProduct (p :: ps) pid = some p :=
  @List.find?_cons_of_pos Product (fun q => q.id == pid) p ps h

/-- Reduction of the product lookup on a non-matching head. -/
theorem findProduct_cons_neg {p : Product} {ps : List Product} {pid : Nat}
    (h : (p.id == pid) = false) : findProduct (p :: ps) pid = findProduct ps pid :=
  @List.find?_cons_of_neg Product (fun q => q.id == pid) p ps (by simp [h])

/-- Reduction of the stock inc update on a matching head. -/
theorem incStock_cons_pos {p : Product} {ps : List Product} {pid : Nat} {d : ℤ}
    (h : (p.id == pid) = true) :
    incStockQuantity (p :: ps) pid d
      = { p with stockQuantity := p.stockQuantity + d } :: ps :=
  @updateFirst_cons_pos Product (fun q => q.id == pid)
    (fun q => { q with stockQuantity := q.stockQuantity + d }) p ps h

/-- Reduction of the stock inc update on a non-matching head. -/
theorem incStock_cons_neg {p : Product} {ps : List Product} {pid : Nat} {d : ℤ}
    (h : (p.id == pid) = false) :
    incStockQuantity (p :: ps) pid d = p :: incStockQuantity ps pid d :=
  @updateFirst_cons_neg Product (fun q => q.id == pid)
    (fun q => { q with stockQuantity := q.stockQuantity + d }) p ps h

/-- An inc update on the product a lookup would return: the looked-up
document itself receives the increment. -/
theorem findProduct_incStock_self (pid : Nat) (d : ℤ) :
    ∀ ps : List Product,
      findProduct (incStockQuantity ps pid d) pid =
        (findProduct ps pid).map
          (fun p => { p with stockQuantity := p.stockQuantity + d }) := by
  intro ps
  induction ps with
  | nil => rfl
  | cons p ps ih =>
    by_cases hp : (p.id == pid) = true
    · have hupd : (({ p with stockQuantity := p.stockQuantity + d } : Product).id == pid)
          = true := hp
      rw [incStock_cons_pos hp, findProduct_cons_pos hupd, findProduct_cons_pos hp]
      rfl
    · have hp' : (p.id == pid) = false := by simpa using hp
      rw [incStock_cons_neg hp', findProduct_cons_neg hp', findProduct_cons_neg hp']
      exact ih

/-- An inc update on one product id leaves lookups of any other id
unchanged. -/
theorem findProduct_incStock_other (pid pid' : Nat) (d : ℤ) (hne : pid' ≠ pid) :
    ∀ ps : List Product,
      findProduct (incStockQuantity ps pid d) pid' = findProduct ps pid' := by
  intro ps
  induction ps with
  | nil => rfl
  | cons p ps ih =>
    by_cases hp : (p.id == pid) = true
    · have hid : p.id = pid := by simpa using hp
      have hp' : (p.id == pid') = false := by
        rw [hid]
        exact beq_eq_false_iff_ne.mpr fun h => hne h.symm
      have hupd : (({ p with stockQuantity := p.stockQuantity + d } : Product).id == pid')
          = false := hp'
      rw [incStock_cons_pos hp, findProduct_cons_neg hupd, findProduct_cons_neg hp']
    · have hpf : (p.id == pid) = false := by simpa using hp
      rw [incStock_cons_neg hpf]
      by_cases hq : (p.id == pid') = true
      · rw [findProduct_cons_pos hq, findProduct_cons_pos hq]
      · have hqf : (p.id == pid') = false := by simpa using hq
        rw [findProduct_cons_neg hqf, findProduct_cons_neg hqf]
        exact ih

/-- A fold of inc updates over pairwise-distinct product ids increments
the looked-up stock of each touched id by its delta and leaves every
other lookup unchanged. -/
theorem foldInc_findProduct (pairs : List (Nat × ℤ)) :
    ∀ ps : List Product, (pairs.map Prod.fst).Nodup →
      (∀ pr ∈ pairs,
        findProduct (pairs.foldl (fun acc pr => incStockQuantity acc pr.1 pr.2) ps) pr.1
          = (findProduct ps pr.1).map
              (fun p => { p with stockQuantity := p.stockQuantity + pr.2 }))
      ∧ (∀ pid, pid ∉ pairs.map Prod.fst →
          findProduct (pairs.foldl (fun acc pr => incStockQuantity acc pr.1 pr.2) ps) pid
            = findProduct ps pid) := by
  induction pairs with
  | nil => intro ps _; exact ⟨by simp, fun pid _ => rfl⟩
  | cons pr rest ih =>
    intro ps hnd
    simp only [List.map_cons, List.nodup_cons] at hnd
    obtain ⟨hnotin, hnd'⟩ := hnd
    obtain ⟨ih1, ih2⟩ := ih (incStockQuantity ps pr.1 pr.2) hnd'
    constructor
    · intro qr hqr
      rcases List.mem_cons.mp hqr with rfl | hmem
      · rw [List.foldl_cons, ih2 qr.1 hnotin, findProduct_incStock_self]
      · have hne : qr.1 ≠ pr.1 := by
          intro heq
          exact hnotin (heq ▸ List.mem_map_of_mem Prod.fst hmem)
        rw [List.foldl_cons, ih1 qr hmem, findProduct_incStock_other _ _ _ hne]
    · intro pid hpid
      simp only [List.map_cons, List.mem_cons, not_or] at hpid
      rw [List.foldl_cons, ih2 pid hpid.2, findProduct_incStock_other _ _ _ hpid.1]

/-- C5 (amended): cancellation is legal exactly from pending or
confirmed; a legal cancel succeeds, sets the order status to cancelled,
restores exactly each ordered quantity onto the corresponding product
stock (and touches no other product), and a second cancel attempt on
the now-cancelled order is rejected naming the cancelled status; a
cancel from any other status, processing included, is rejected naming
the current status. -/
theorem cancelOrder_spec (st : StoreState) (oid uid : Nat) (reason : Option String)
    (t : Nat) (o : Order)
    (hget : st.orders.get? oid = some o)
    (huser : o.user = uid) :
    (o.orderStatus ∈ cancellableStatuses →
      (o.items.map OrderItem.product).Nodup →
      ∃ st1, cancelOrder st oid uid reason t = .ok st1 ∧
        (st1.orders.get? oid).map Order.orderStatus = some .cancelled ∧
        (∀ it ∈ o.items, findProduct st1.products it.product
            = (findProduct st.products it.product).map
                (fun p => { p with stockQuantity := p.stockQuantity + (it.quantity : ℤ) })) ∧
        (∀ pid, pid ∉ o.items.map OrderItem.product →
            findProduct st1.products pid = findProduct st.products pid) ∧
        (∀ r2 t2, cancelOrder st1 oid uid r2 t2 = .error (.cannotCancel .cancelled)))
    ∧ (o.orderStatus ∉ cancellableStatuses →
        cancelOrder st oid uid reason t = .error (.cannotCancel o.orderStatus)) := by
  have hne : ¬o.user ≠ uid := by simp [huser]
  constructor
  · intro hmem hnd
    obtain ⟨hlt, -⟩ := List.get?_eq_some.mp hget
    refine ⟨{ st with
        orders := st.orders.set oid
          { o with
              orderStatus := .cancelled
              cancellation :=
                { reason := some (reason.getD "Cancelled by customer")
                  cancelledAt := some t
                  cancelledBy := some uid }
              timeline := o.timeline ++
                [⟨.cancelled, reason.getD "Order cancelled by customer", t, some uid⟩] }
        products := o.items.foldl
          (fun ps it => incStockQuantity ps it.product (it.quantity : ℤ)) st.products },
      ?_, ?_, ?_, ?_, ?_⟩
    · unfold cancelOrder
      rw [hget]
      dsimp only
      rw [if_neg hne, if_neg (by simpa using hmem)]
    · simp only [List.get?_eq_getElem?]
      rw [List.getElem?_set_self hlt]
      rfl
    · intro it hit
      have hnd' : ((o.items.map (fun it => (it.product, (it.quantity : ℤ)))).map
          Prod.fst).Nodup := by
        simpa [List.map_map, Function.comp] using hnd
      have hfold := (foldInc_findProduct
        (o.items.map (fun it => (it.product, (it.quantity : ℤ)))) st.products hnd').1
      rw [List.foldl_map] at hfold
      exact hfold (it.product, (it.quantity : ℤ))
        (List.mem_map_of_mem (fun it => (it.product, (it.quantity : ℤ))) hit)
    · intro pid hpid
      have hnd' : ((o.items.map (fun it => (it.product, (it.quantity : ℤ)))).map
          Prod.fst).Nodup := by
        simpa [List.map_map, Function.comp] using hnd
      have hfold := (foldInc_findProduct
        (o.items.map (fun it => (it.product, (it.quantity : ℤ)))) st.products hnd').2
      rw [List.foldl_map] at hfold
      refine hfold pid ?_
      simpa [List.map_map, Function.comp] using hpid
    · intro r2 t2
      unfold cancelOrder
      simp only [List.get?_eq_getElem?]
      rw [List.getElem?_set_self hlt]
      dsimp only
      rw [if_neg hne, if_pos (by decide : OrderStatus.cancelled ∉ cancellableStatuses)]
  · intro hnot
    unfold cancelOrder
    rw [hget]
    dsimp only
    rw [if_neg hne, if_pos hnot]

/-- A one-unit product referenced by the cancel-test orders. -/
def c5Product : Product :=
  { id := 1
    name := "Vase"
    price := 100
    isActive := true
    stockQuantity := 1
    isInStock := true }

/-- An order in processing holding two units of c5Product. -/
def c5Order : Order :=
  { baseOrder .processing with
      user := 7
      items := [{ product := 1, quantity := 2, price := 100, totalPrice := 200 }] }

/-- A store holding c5Order at index 0. -/
def c5State : StoreState :=
  { products := [c5Product], cartItems := [], orders := [c5Order] }

/-- C5 counterexample: the cancel route rejects an order in processing
(its cancellable set is only pending and confirmed), so cancelling from
processing neither restores stock nor reaches cancelled. -/
theorem cancelOrder_processing_cex :
    (c5State.orders.get? 0).map Order.orderStatus = some .processing
    ∧ cancelOrder c5State 0 7 none 5 = .error (.cannotCancel .processing) :=
  ⟨rfl, rfl⟩

/-- An order still pending, cancellable, holding two units of
c5Product. -/
def c5bOrder : Order :=
  { baseOrder .pending with
      user := 7
      items := [{ product := 1, quantity := 2, price := 100, totalPrice := 200 }] }

/-- A store holding c5bOrder at index 0. -/
def c5bState : StoreState :=
  { products := [c5Product], cartItems := [], orders := [c5bOrder] }

/-- Witness for C5 (amended): the pending order cancels successfully
with the stock restored and a second cancel rejected, and the
processing order of c5State is rejected naming processing. -/
theorem cancelOrder_spec_witness :
    (∃ st1, cancelOrder c5bState 0 7 none 5 = .ok st1 ∧
      (st1.orders.get? 0).map Order.orderStatus = some .cancelled ∧
      (∀ it ∈ c5bOrder.items, findProduct st1.products it.product
          = (findProduct c5bState.products it.product).map
              (fun p => { p with stockQuantity := p.stockQuantity + (it.quantity : ℤ) })) ∧
      (∀ pid, pid ∉ c5bOrder.items.map OrderItem.product →
          findProduct st1.products pid = findProduct c5bState.products pid) ∧
      (∀ r2 t2, cancelOrder st1 0 7 r2 t2 = .error (.cannotCancel .cancelled)))
    ∧ cancelOrder c5State 0 7 none 5 = .error (.cannotCancel .processing) :=
  ⟨(cancelOrder_spec c5bState 0 7 none 5 c5bOrder rfl rfl).1 (by decide) (by decide),
    (cancelOrder_spec c5State 0 7 none 5 c5Order rfl rfl).2 (by decide)⟩

/-- An inc update keeps every stock non-negative provided the stocks
were non-negative and the updated document (the first one the lookup
returns) stays non-negative after the increment. -/
theorem nonneg_incStock (pid : Nat) (d : ℤ) :
    ∀ ps : List Product,
      (∀ p ∈ ps, 0 ≤ p.stockQuantity) →
      (∀ p, findProduct ps pid = some p → 0 ≤ p.stockQuantity + d) →
      ∀ q ∈ incStockQuantity ps pid d, 0 ≤ q.stockQuantity := by
  intro ps
  induction ps with
  | nil => intro _ _ q hq; exact absurd hq (by simp [incStockQuantity, updateFirst])
  | cons p ps ih =>
    intro hps hd q hq
    by_cases hp : (p.id == pid) = true
    · rw [incStock_cons_pos hp] at hq
      rcases List.mem_cons.mp hq with rfl | hmem
      · exact hd p (findProduct_cons_pos hp)
      · exact hps q (List.mem_cons_of_mem p hmem)
    · have hpf : (p.id == pid) = false := by simpa using hp
      rw [incStock_cons_neg hpf] at hq
      rcases List.mem_cons.mp hq with rfl | hmem
      · exact hps q (List.mem_cons_self q ps)
      · exact ih (fun r hr => hps r (List.mem_cons_of_mem p hr))
          (fun r hr => hd r ((findProduct_cons_neg hpf).symm ▸ hr)) q hmem

/-- The stock-restore fold of the cancel handler only increments by
ordered (non-negative) quantities, so non-negativity of every stock is
preserved. -/
theorem foldIncNonneg (items : List OrderItem) :
    ∀ cur : List Product,
      (∀ p ∈ cur, 0 ≤ p.stockQuantity) →
      ∀ q ∈ items.foldl
          (fun ps it => incStockQuantity ps it.product (it.quantity : ℤ)) cur,
        0 ≤ q.stockQuantity := by
  induction items with
  | nil => intro cur h q hq; exact h q hq
  | cons it rest ih =>
    intro cur h q hq
    rw [List.foldl_cons] at hq
    refine ih _ ?_ q hq
    refine nonneg_incStock it.product (it.quantity : ℤ) cur h ?_
    intro p hp
    have : p ∈ cur := List.mem_of_find?_eq_some hp
    have := h p this
    positivity

/-- The stock-decrement fold of the order creation handler keeps every
stock non-negative when the cart lines have pairwise-distinct product
ids and each line passed the stock check against the pre-fold product
collection. -/
theorem foldDec_nonneg :
    ∀ (cart : List CartItem) (cur orig : List Product),
      (∀ p ∈ cur, 0 ≤ p.stockQuantity) →
      (cart.map CartItem.productId).Nodup →
      (∀ ci ∈ cart, findProduct cur ci.productId = findProduct orig ci.productId) →
      (∀ ci ∈ cart, ∃ p, findProduct orig ci.productId = some p ∧
        (ci.quantity : ℤ) ≤ p.stockQuantity) →
      ∀ q ∈ cart.foldl
          (fun ps ci => incStockQuantity ps ci.productId (-(ci.quantity : ℤ))) cur,
        0 ≤ q.stockQuantity := by
  intro cart
  induction cart with
  | nil => intro cur orig h _ _ _ q hq; exact h q hq
  | cons ci rest ih =>
    intro cur orig h hnd htr hchk q hq
    rw [List.foldl_cons] at hq
    simp only [List.map_cons, List.nodup_cons] at hnd
    obtain ⟨hnotin, hnd'⟩ := hnd
    obtain ⟨p0, hfind0, hle0⟩ := hchk ci (List.mem_cons_self ci rest)
    have hcur1 : ∀ p ∈ incStockQuantity cur ci.productId (-(ci.quantity : ℤ)),
        0 ≤ p.stockQuantity := by
      refine nonneg_incStock _ _ cur h ?_
      intro p hp
      rw [htr ci (List.mem_cons_self ci rest), hfind0] at hp
      cases hp
      omega
    refine ih _ orig hcur1 hnd' ?_ (fun cj hcj => hchk cj (List.mem_cons_of_mem ci hcj)) q hq
    intro cj hcj
    have hne : cj.productId ≠ ci.productId := by
      intro heq
      exact hnotin (heq ▸ List.mem_map_of_mem CartItem.productId hcj)
    rw [findProduct_incStock_other _ _ _ hne, htr cj (List.mem_cons_of_mem ci hcj)]

/-- Inversion of a successful cancellation: the target order existed,
was owned by the caller, was cancellable, and the new state is exactly
the one the handler writes. -/
theorem cancelOrder_ok_inv (st : StoreState) (oid uid : Nat) (r : Option String)
    (t : Nat) (st1 : StoreState) (h : cancelOrder st oid uid r t = .ok st1) :
    ∃ o, st.orders.get? oid = some o ∧ o.user = uid ∧
      o.orderStatus ∈ cancellableStatuses ∧
      st1 = { st with
        orders := st.orders.set oid
          { o with
              orderStatus := .cancelled
              cancellation :=
                { reason := some (r.getD "Cancelled by customer")
                  cancelledAt := some t
                  cancelledBy := some uid }
              timeline := o.timeline ++
                [⟨.cancelled, r.getD "Order cancelled by customer", t, some uid⟩] }
        products := o.items.foldl
          (fun ps it => incStockQuantity ps it.product (it.quantity : ℤ)) st.products } := by
  unfold cancelOrder at h
  cases hget : st.orders.get? oid with
  | none => rw [hget] at h; exact absurd h (by simp)
  | some o =>
    rw [hget] at h
    dsimp only at h
    split at h
    · exact absurd h (by simp)
    · rename_i huser
      split at h
      · exact absurd h (by simp)
      · rename_i hmem
        refine ⟨o, rfl, not_not.mp huser, not_not.mp hmem, ?_⟩
        simp only [Except.ok.injEq] at h
        exact h.symm

/-- One storefront operation preserves non-negativity of every stock,
given the cart well-formedness the cart routes maintain. -/
theorem stepOp_nonneg (st : StoreState) (op : StoreOp)
    (h0 : ∀ p ∈ st.products, 0 ≤ p.stockQuantity) (hwf : opWellFormed op) :
    ∀ p ∈ (stepOp st op).products, 0 ≤ p.stockQuantity := by
  cases op with
  | place u cart m t =>
    simp only [stepOp]
    cases hres : placeOrder { st with cartItems := cart } u m t with
    | error e => exact h0
    | ok res =>
      obtain ⟨st1, ord⟩ := res
      obtain ⟨hb, -, -, -, -, -, -, -, hprod, -, -⟩ :=
        placeOrder_ok_inv _ u m t st1 ord hres
      intro p hp
      have hp1 : p ∈ st1.products := hp
      rw [hprod] at hp1
      exact foldDec_nonneg cart st.products st.products h0 hwf
        (fun ci _ => rfl)
        (fun ci hci => by
          obtain ⟨q, hq, -, -, hle⟩ := (buildOrderItems_ok st.products cart ord.items hb).2 ci hci
          exact ⟨q, hq, hle⟩)
        p hp1
  | cancel oid u r t =>
    simp only [stepOp]
    cases hres : cancelOrder st oid u r t with
    | error e => exact h0
    | ok st1 =>
      obtain ⟨o, -, -, -, hst1⟩ := cancelOrder_ok_inv st oid u r t st1 hres
      intro p hp
      have hp1 : p ∈ st1.products := hp
      rw [hst1] at hp1
      exact foldIncNonneg o.items st.products h0 p hp1

/-- C3: starting from a state where every stock quantity is
non-negative, any sequence of order placements (each over a cart whose
lines reference pairwise-distinct products, the well-formedness the
cart routes maintain) and order cancellations leaves every product
stock quantity non-negative. -/
theorem stock_nonneg_after_ops (st : StoreState) (ops : List StoreOp)
    (h0 : ∀ p ∈ st.products, 0 ≤ p.stockQuantity)
    (hwf : ∀ op ∈ ops, opWellFormed op) :
    ∀ p ∈ (runOps st ops).products, 0 ≤ p.stockQuantity := by
  induction ops generalizing st with
  | nil => exact h0
  | cons op ops ih =>
    have h1 := stepOp_nonneg st op h0 (hwf op (List.mem_cons_self op ops))
    have := ih (stepOp st op) h1 (fun o ho => hwf o (List.mem_cons_of_mem op ho))
    simpa [runOps, List.foldl_cons] using this

/-- Witness for C3: a placement of the two-unit cart followed by a
cancellation of the created order keeps every stock non-negative in the
concrete example store. -/
theorem stock_nonneg_after_ops_witness :
    ((runOps exState
        [.place 7 exState.cartItems "cod" 3, .cancel 0 7 none 4]).products.all
      (fun p => decide (0 ≤ p.stockQuantity))) = true := by
  rw [List.all_eq_true]
  intro p hp
  exact decide_eq_true (stock_nonneg_after_ops exState
    [.place 7 exState.cartItems "cod" 3, .cancel 0 7 none 4]
    (by intro q hq; simp only [exState, exProduct, List.mem_singleton] at hq; subst hq; decide)
    (by
      intro op hop
      rcases List.mem_cons.mp hop with rfl | hop'
      · simp [opWellFormed, exState]
      · rcases List.mem_cons.mp hop' with rfl | h
        · simp [opWellFormed]
        · exact absurd h (by simp))
    p hp)

/-- After the guarded success update, the payment status is always
completed (it was already completed, or the body just set it). -/
theorem paymentSuccessUpdate_completed (o : Order) (pid : String) (t : Nat) :
    (paymentSuccessUpdate o pid t).paymentDetails.status = .completed := by
  unfold paymentSuccessUpdate paymentSuccessBody
  by_cases h : o.paymentDetails.status = .completed
  · rw [if_pos h]
    exact h
  · rw [if_neg h]
    dsimp only
    split
    · rfl
    · rfl

/-- The guarded success update never rewrites the stored payment intent
id. -/
theorem paymentSuccessUpdate_intent (o : Order) (pid : String) (t : Nat) :
    (paymentSuccessUpdate o pid t).paymentDetails.paymentIntentId
      = o.paymentDetails.paymentIntentId := by
  unfold paymentSuccessUpdate paymentSuccessBody
  by_cases h : o.paymentDetails.status = .completed
  · rw [if_pos h]
  · rw [if_neg h]
    dsimp only
    split
    · rfl
    · rfl

/-- The intent matcher is invariant under the guarded success update. -/
theorem matchesIntent_update (o : Order) (pid : String) (t : Nat) :
    matchesIntent pid (paymentSuccessUpdate o pid t) = matchesIntent pid o := by
  unfold matchesIntent
  rw [paymentSuccessUpdate_intent]

/-- Applying the guarded success update twice equals applying it once:
the first application leaves the payment completed, which the guard
then short-circuits. -/
theorem paymentSuccessUpdate_idem (o : Order) (pid : String) (t1 t2 : Nat) :
    paymentSuccessUpdate (paymentSuccessUpdate o pid t1) pid t2
      = paymentSuccessUpdate o pid t1 := by
  nth_rewrite 1 [paymentSuccessUpdate]
  rw [if_pos (paymentSuccessUpdate_completed o pid t1)]

/-- C6: the payment-succeeded webhook handler is idempotent over the
order collection: re-delivering the same notification changes nothing
beyond the first delivery; when the matched order is already marked
completed the handler is a no-op (and no error); and a single delivery
to a pending, not-yet-completed order appends exactly one confirmed
timeline entry and performs exactly one transition to confirmed. -/
theorem handlePaymentSuccess_idempotent (orders : List Order) (pid : String)
    (t1 t2 : Nat) :
    handlePaymentSuccess (handlePaymentSuccess orders pid t1) pid t2
      = handlePaymentSuccess orders pid t1
    ∧ ((∀ o ∈ orders, matchesIntent pid o = true → o.paymentDetails.status = .completed) →
        handlePaymentSuccess orders pid t2 = orders)
    ∧ (∀ o : Order, o.orderStatus = .pending → o.paymentDetails.status ≠ .completed →
        (paymentSuccessUpdate o pid t1).timeline
            = o.timeline ++ [⟨.confirmed, "Payment completed via webhook", t1, none⟩]
          ∧ (paymentSuccessUpdate o pid t1).orderStatus = .confirmed) := by
  refine ⟨?_, ?_, ?_⟩
  · unfold handlePaymentSuccess
    induction orders with
    | nil => rfl
    | cons o os ih =>
      by_cases hm : matchesIntent pid o = true
      · rw [updateFirst_cons_pos hm]
        have hm1 : matchesIntent pid (paymentSuccessUpdate o pid t1) = true := by
          rw [matchesIntent_update]
          exact hm
        rw [updateFirst_cons_pos hm1, paymentSuccessUpdate_idem]
      · have hmf : matchesIntent pid o = false := by simpa using hm
        rw [updateFirst_cons_neg hmf, updateFirst_cons_neg hmf, ih]
  · intro hall
    unfold handlePaymentSuccess
    induction orders with
    | nil => rfl
    | cons o os ih =>
      by_cases hm : matchesIntent pid o = true
      · rw [updateFirst_cons_pos hm]
        have hc := hall o (List.mem_cons_self o os) hm
        unfold paymentSuccessUpdate
        rw [if_pos hc]
      · have hmf : matchesIntent pid o = false := by simpa using hm
        rw [updateFirst_cons_neg hmf]
        rw [ih (fun o2 ho2 => hall o2 (List.mem_cons_of_mem o ho2))]
  · intro o hpend hnc
    unfold paymentSuccessUpdate paymentSuccessBody
    rw [if_neg hnc]
    dsimp only
    rw [if_pos hpend]
    exact ⟨rfl, rfl⟩

/-- Witness for C6: a store with one completed and one pending order,
both carrying the same intent id, where the no-op and the
single-confirmation facts are checked concretely. -/
def c6DoneOrder : Order :=
  { baseOrder .confirmed with
      paymentDetails :=
        { method := "stripe", status := .completed, paymentIntentId := some "pi_1" } }

/-- A pending order carrying the intent id pi_2 with payment not yet
completed. -/
def c6PendingOrder : Order :=
  { baseOrder .pending with
      paymentDetails :=
        { method := "stripe", status := .pending, paymentIntentId := some "pi_2" } }

/-- Witness for C6: idempotence on a concrete collection, the no-op on
an already-completed order, and the single confirmed entry on a pending
order. -/
theorem handlePaymentSuccess_idempotent_witness :
    handlePaymentSuccess (handlePaymentSuccess [c6DoneOrder, c6PendingOrder] "pi_1" 1)
        "pi_1" 2
      = handlePaymentSuccess [c6DoneOrder, c6PendingOrder] "pi_1" 1
    ∧ handlePaymentSuccess [c6DoneOrder, c6PendingOrder] "pi_1" 2
        = [c6DoneOrder, c6PendingOrder]
    ∧ ((paymentSuccessUpdate c6PendingOrder "pi_2" 1).timeline
          = c6PendingOrder.timeline ++ [⟨.confirmed, "Payment completed via webhook", 1, none⟩]
        ∧ (paymentSuccessUpdate c6PendingOrder "pi_2" 1).orderStatus = .confirmed) :=
  ⟨(handlePaymentSuccess_idempotent [c6DoneOrder, c6PendingOrder] "pi_1" 1 2).1,
    (handlePaymentSuccess_idempotent [c6DoneOrder, c6PendingOrder] "pi_1" 2 2).2.1
      (by decide),
    (handlePaymentSuccess_idempotent [c6DoneOrder, c6PendingOrder] "pi_2" 1 2).2.2
      c6PendingOrder rfl (by decide)⟩

/-- Any position of an updateFirst result holds either the original
element or its image under the update. -/
theorem updateFirst_get? (p : α → Bool) (f : α → α) :
    ∀ (l : List α) (i : Nat),
      (updateFirst p f l).get? i = l.get? i
      ∨ (updateFirst p f l).get? i = (l.get? i).map f := by
  intro l
  induction l with
  | nil => intro i; left; rfl
  | cons a as ih =>
    intro i
    by_cases hp : p a = true
    · rw [updateFirst_cons_pos hp]
      cases i with
      | zero => right; rfl
      | succ j => left; rfl
    · have hpf : p a = false := by simpa using hp
      rw [updateFirst_cons_neg hpf]
      cases i with
      | zero => left; rfl
      | succ j => exact ih j

/-- On an order that is not pending, the guarded success update touches
only the payment sub-document. -/
theorem paymentSuccessUpdate_not_pending (o : Order) (pid : String) (t : Nat)
    (hnp : o.orderStatus ≠ .pending) :
    paymentSuccessUpdate o pid t
      = { o with paymentDetails := (paymentSuccessUpdate o pid t).paymentDetails } := by
  unfold paymentSuccessUpdate paymentSuccessBody
  by_cases hc : o.paymentDetails.status = .completed
  · rw [if_pos hc]
  · rw [if_neg hc]
    dsimp only
    rw [if_neg hnp]

/-- C7: the payment-failed handler sets the payment status of the
matched order to failed and changes no order status anywhere in the
collection; the guarded payment-success update changes nothing but the
payment sub-document unless the order is still pending, in which case
(when the payment was not already completed) it moves it to
confirmed — pending is the only status from which it ever moves. -/
theorem paymentNotification_frame (o : Order) (pid : String) (t : Nat) :
    (paymentFailedBody o t).paymentDetails.status = .failed
    ∧ (paymentFailedBody o t).orderStatus = o.orderStatus
    ∧ (∀ (orders : List Order) (i : Nat) (o0 o1 : Order),
        orders.get? i = some o0 →
        (handlePaymentFailed orders pid t).get? i = some o1 →
        o1.orderStatus = o0.orderStatus)
    ∧ (o.orderStatus ≠ .pending →
        paymentSuccessUpdate o pid t
          = { o with paymentDetails := (paymentSuccessUpdate o pid t).paymentDetails })
    ∧ (o.orderStatus = .pending → o.paymentDetails.status ≠ .completed →
        (paymentSuccessUpdate o pid t).orderStatus = .confirmed)
    ∧ ((paymentSuccessUpdate o pid t).orderStatus ≠ o.orderStatus →
        o.orderStatus = .pending) := by
  refine ⟨rfl, rfl, ?_, paymentSuccessUpdate_not_pending o pid t, ?_, ?_⟩
  · intro orders i o0 o1 h0 h1
    rcases updateFirst_get? (matchesIntent pid) (fun q => paymentFailedBody q t) orders i
      with heq | heq
    · unfold handlePaymentFailed at h1
      rw [heq, h0] at h1
      cases h1
      rfl
    · unfold handlePaymentFailed at h1
      rw [heq, h0] at h1
      cases h1
      rfl
  · intro hpend hnc
    unfold paymentSuccessUpdate paymentSuccessBody
    rw [if_neg hnc]
    dsimp only
    rw [if_pos hpend]
  · intro hch
    by_contra hnp
    apply hch
    rw [paymentSuccessUpdate_not_pending o pid t hnp]

/-- A shipped order whose payment fails, used to instantiate C7. -/
def c7Order : Order :=
  { baseOrder .shipped with
      paymentDetails :=
        { method := "stripe", status := .pending, paymentIntentId := some "pi_7" } }

/-- Witness for C7: on the concrete shipped order a failure notification
sets the payment status to failed without touching the order status
(also across the collection), and a success notification leaves
everything but the payment sub-document unchanged; on the pending order
of the C6 witness a success notification confirms it. -/
theorem paymentNotification_frame_witness :
    (paymentFailedBody c7Order 9).paymentDetails.status = .failed
    ∧ (paymentFailedBody c7Order 9).orderStatus = c7Order.orderStatus
    ∧ ((handlePaymentFailed [c7Order] "pi_7" 9).get? 0).map Order.orderStatus
        = some .shipped
    ∧ paymentSuccessUpdate c7Order "pi_7" 9
        = { c7Order with
              paymentDetails := (paymentSuccessUpdate c7Order "pi_7" 9).paymentDetails }
    ∧ (paymentSuccessUpdate c6PendingOrder "pi_2" 9).orderStatus = .confirmed := by
  have h := paymentNotification_frame c7Order "pi_7" 9
  refine ⟨h.1, h.2.1, ?_, h.2.2.2.1 (by decide), ?_⟩
  · have h3 := h.2.2.1 [c7Order] 0 c7Order (paymentFailedBody c7Order 9) rfl rfl
    show some (paymentFailedBody c7Order 9).orderStatus = some OrderStatus.shipped
    rw [h3]
    rfl
  · exact (paymentNotification_frame c6PendingOrder "pi_2" 9).2.2.2.2.1 rfl (by decide)

/-- C8: across the modelled operations the timeline only grows by
appending (addTimelineEntry and updateStatus append exactly one entry,
cancellation appends one cancelled entry, the payment handlers append
at most one entry) and after every operation that changes orderStatus
the last timeline entry status equals the new orderStatus; order
creation writes the single initial pending entry. -/
theorem timeline_append_only :
    (∀ (o : Order) (s : OrderStatus) (msg : String) (u : Option Nat) (t : Nat),
      (o.addTimelineEntry s msg u t).timeline = o.timeline ++ [⟨s, msg, t, u⟩]
      ∧ ((o.addTimelineEntry s msg u t).timeline.getLast?).map TimelineEntry.status
          = some (o.addTimelineEntry s msg u t).orderStatus)
    ∧ (∀ (o : Order) (s : OrderStatus) (msg : String) (u : Option Nat) (t : Nat) (o1 : Order),
        o.updateStatus s msg u t = .ok o1 →
        o1.timeline = o.timeline ++ [⟨s, msg, t, u⟩]
        ∧ o1.orderStatus = s
        ∧ (o1.timeline.getLast?).map TimelineEntry.status = some o1.orderStatus)
    ∧ (∀ (st : StoreState) (u : Nat) (m : String) (t : Nat) (st1 : StoreState) (ord : Order),
        placeOrder st u m t = .ok (st1, ord) →
        ord.timeline = [⟨.pending, "Order placed successfully", t, some u⟩]
        ∧ ord.orderStatus = .pending
        ∧ (ord.timeline.getLast?).map TimelineEntry.status = some ord.orderStatus)
    ∧ (∀ (st : StoreState) (oid uid : Nat) (r : Option String) (t : Nat) (st1 : StoreState),
        cancelOrder st oid uid r t = .ok st1 →
        ∃ o, st.orders.get? oid = some o ∧
          (st1.orders.get? oid).map Order.timeline
            = some (o.timeline ++
                [⟨.cancelled, r.getD "Order cancelled by customer", t, some uid⟩])
          ∧ (st1.orders.get? oid).map Order.orderStatus = some .cancelled)
    ∧ (∀ (o : Order) (pid : String) (t : Nat),
        (∃ tail, (paymentSuccessUpdate o pid t).timeline = o.timeline ++ tail)
        ∧ ((paymentSuccessUpdate o pid t).orderStatus ≠ o.orderStatus →
            ((paymentSuccessUpdate o pid t).timeline.getLast?).map TimelineEntry.status
              = some (paymentSuccessUpdate o pid t).orderStatus)
        ∧ (paymentFailedBody o t).timeline
            = o.timeline ++ [⟨o.orderStatus, "Payment failed", t, none⟩]) := by
  refine ⟨?_, ?_, ?_, ?_, ?_⟩
  · intro o s msg u t
    exact ⟨rfl, by simp [Order.addTimelineEntry, List.getLast?_concat]⟩
  · intro o s msg u t o1 h
    unfold Order.updateStatus at h
    dsimp only at h
    by_cases hmem : s ∈ statusTransitions o.orderStatus
    · rw [if_pos hmem] at h
      simp only [Except.ok.injEq] at h
      subst h
      cases s <;>
        exact ⟨rfl, rfl, by simp [Order.addTimelineEntry, List.getLast?_concat]⟩
    · rw [if_neg hmem] at h
      exact absurd h (by simp)
  · intro st u m t st1 ord h
    obtain ⟨-, -, -, -, -, -, hstat, htl, -, -, -⟩ := placeOrder_ok_inv st u m t st1 ord h
    exact ⟨htl, hstat, by rw [htl, hstat]; rfl⟩
  · intro st oid uid r t st1 h
    obtain ⟨o, hget, -, -, hst1⟩ := cancelOrder_ok_inv st oid uid r t st1 h
    obtain ⟨hlt, -⟩ := List.get?_eq_some.mp hget
    refine ⟨o, hget, ?_, ?_⟩
    · rw [hst1]
      simp only [List.get?_eq_getElem?]
      rw [List.getElem?_set_self hlt]
      rfl
    · rw [hst1]
      simp only [List.get?_eq_getElem?]
      rw [List.getElem?_set_self hlt]
      rfl
  · intro o pid t
    refine ⟨?_, ?_, rfl⟩
    · by_cases hc : o.paymentDetails.status = .completed
      · refine ⟨[], ?_⟩
        unfold paymentSuccessUpdate
        rw [if_pos hc, List.append_nil]
      · by_cases hpend : o.orderStatus = .pending
        · refine ⟨[⟨.confirmed, "Payment completed via webhook", t, none⟩], ?_⟩
          unfold paymentSuccessUpdate paymentSuccessBody
          rw [if_neg hc]
          dsimp only
          rw [if_pos hpend]
        · refine ⟨[], ?_⟩
          rw [paymentSuccessUpdate_not_pending o pid t hpend, List.append_nil]
    · intro hch
      by_cases hpend : o.orderStatus = .pending
      · by_cases hc : o.paymentDetails.status = .completed
        · exfalso
          apply hch
          unfold paymentSuccessUpdate
          rw [if_pos hc]
        · unfold paymentSuccessUpdate paymentSuccessBody
          rw [if_neg hc]
          dsimp only
          rw [if_pos hpend]
          simp [List.getLast?_concat]
      · exfalso
        apply hch
        rw [paymentSuccessUpdate_not_pending o pid t hpend]

/-- The result of the concrete confirmed transition used by the C8
witness. -/
def c8Updated : Order :=
  { baseOrder .pending with
      orderStatus := .confirmed
      timeline := [⟨.confirmed, "ok", 4, none⟩] }

/-- The cancelled order produced by cancelling c5bOrder at time 5. -/
def c8CancelledOrder : Order :=
  { c5bOrder with
      orderStatus := .cancelled
      cancellation :=
        { reason := some "Cancelled by customer"
          cancelledAt := some 5
          cancelledBy := some 7 }
      timeline := [⟨.cancelled, "Order cancelled by customer", 5, some 7⟩] }

/-- The store state after cancelling c5bOrder at time 5. -/
def c8CancelState : StoreState :=
  { products := [{ c5Product with stockQuantity := 3 }]
    cartItems := []
    orders := [c8CancelledOrder] }

/-- Witness for C8: each conjunct instantiated on a concrete order,
placement, cancellation and payment notification. -/
theorem timeline_append_only_witness :
    ((baseOrder .pending).addTimelineEntry .confirmed "ok" none 4).timeline
        = (baseOrder .pending).timeline ++ [⟨.confirmed, "ok", 4, none⟩]
    ∧ (c8Updated.timeline = (baseOrder .pending).timeline ++ [⟨.confirmed, "ok", 4, none⟩]
        ∧ c8Updated.orderStatus = .confirmed
        ∧ (c8Updated.timeline.getLast?).map TimelineEntry.status
            = some c8Updated.orderStatus)
    ∧ (exOrder.timeline = [⟨.pending, "Order placed successfully", 3, some 7⟩]
        ∧ exOrder.orderStatus = .pending
        ∧ (exOrder.timeline.getLast?).map TimelineEntry.status = some exOrder.orderStatus)
    ∧ (∃ o, c5bState.orders.get? 0 = some o ∧
        (c8CancelState.orders.get? 0).map Order.timeline
          = some (o.timeline ++ [⟨.cancelled, "Order cancelled by customer", 5, some 7⟩])
        ∧ (c8CancelState.orders.get? 0).map Order.orderStatus = some .cancelled)
    ∧ ((paymentSuccessUpdate c6PendingOrder "pi_2" 4).timeline.getLast?).map
          TimelineEntry.status
        = some (paymentSuccessUpdate c6PendingOrder "pi_2" 4).orderStatus :=
  ⟨(timeline_append_only.1 (baseOrder .pending) .confirmed "ok" none 4).1,
    timeline_append_only.2.1 (baseOrder .pending) .confirmed "ok" none 4 c8Updated rfl,
    timeline_append_only.2.2.1 exState 7 "cod" 3 exState1 exOrder exState_place,
    timeline_append_only.2.2.2.1 c5bState 0 7 none 5 c8CancelState rfl,
    (timeline_append_only.2.2.2.2 c6PendingOrder "pi_2" 4).2.1 (by decide)⟩

/-- An active, in-stock product with exactly one unit left. -/
def c9Product : Product :=
  { id := 1
    name := "Last"
    price := 1000
    isActive := true
    stockQuantity := 1
    isInStock := true }

/-- A store whose cart takes the last unit of c9Product. -/
def c9State : StoreState :=
  { products := [c9Product]
    cartItems := [{ productId := 1, quantity := 1, price := 1000 }]
    orders := [] }

/-- An out-of-stock product whose units are held by a pending order. -/
def c9bProduct : Product :=
  { id := 2
    name := "Out"
    price := 50
    isActive := true
    stockQuantity := 0
    isInStock := false }

/-- A pending order holding two units of c9bProduct. -/
def c9bOrder : Order :=
  { baseOrder .pending with
      user := 7
      items := [{ product := 2, quantity := 2, price := 50, totalPrice := 100 }] }

/-- A store holding c9bProduct and the pending order over it. -/
def c9bState : StoreState :=
  { products := [c9bProduct], cartItems := [], orders := [c9bOrder] }

/-- C9: the stock decrement of order placement and the stock restore of
cancellation are issued through findByIdAndUpdate with an inc operator,
which bypasses the pre-save hook that maintains isInStock, so the
derived flag goes stale: buying the last unit leaves the stock at 0
with isInStock still true (the hook would set it false), and a
cancellation restoring stock onto an out-of-stock product leaves
isInStock false with two units available (the hook would set it
true). -/
theorem isInStock_stale_after_stock_updates :
    ((placeOrder c9State 7 "cod" 3).map
        (fun r => (findProduct r.1.products 1).map
          (fun p => (p.stockQuantity, p.isInStock, p.applySaveHook.isInStock))))
      = .ok (some (0, true, false))
    ∧ ((cancelOrder c9bState 0 7 none 4).map
        (fun st1 => (findProduct st1.products 2).map
          (fun p => (p.stockQuantity, p.isInStock, p.applySaveHook.isInStock))))
      = .ok (some (2, false, true)) :=
  ⟨rfl, rfl⟩

/-- C10: for a quick-buy request on an existing product that is flagged
in stock with enough quantity, the handler accepts exactly when the
submitted subtotal, shipping and total each differ from the server
recomputation (subtotal price times quantity, shipping 0 from 5000 and
a flat 199 below, total their sum) by at most one hundredth; any larger
deviation yields the invalid-pricing error, and every error path
returns before the order creation and the stock decrement. -/
theorem quickBuy_pricing (products : List Product) (r : QuickBuyRequest) (p : Product)
    (hfind : findProduct products r.productId = some p)
    (hstk : p.isInStock = true) (hqty : (r.quantity : ℤ) ≤ p.stockQuantity) :
    ((∃ res, quickBuy products r = .ok res) ↔
      (|r.subtotal - p.price * (r.quantity : ℚ)| ≤ 1 / 100
        ∧ |r.shipping - (if p.price * (r.quantity : ℚ) ≥ 5000 then (0 : ℚ) else 199)| ≤ 1 / 100
        ∧ |r.total - (p.price * (r.quantity : ℚ)
            + (if p.price * (r.quantity : ℚ) ≥ 5000 then (0 : ℚ) else 199))| ≤ 1 / 100))
    ∧ ((|r.subtotal - p.price * (r.quantity : ℚ)| > 1 / 100
        ∨ |r.shipping - (if p.price * (r.quantity : ℚ) ≥ 5000 then (0 : ℚ) else 199)| > 1 / 100
        ∨ |r.total - (p.price * (r.quantity : ℚ)
            + (if p.price * (r.quantity : ℚ) ≥ 5000 then (0 : ℚ) else 199))| > 1 / 100) →
        quickBuy products r = .error .invalidPricing) := by
  have hguard : ¬(!p.isInStock || decide (p.stockQuantity < (r.quantity : ℤ))) = true := by
    simp [hstk, not_lt.mpr hqty]
  have hred : quickBuy products r =
      (if |r.subtotal - p.price * (r.quantity : ℚ)| > 1 / 100
          ∨ |r.shipping - (if p.price * (r.quantity : ℚ) ≥ 5000 then (0 : ℚ) else 199)| > 1 / 100
          ∨ |r.total - (p.price * (r.quantity : ℚ)
              + (if p.price * (r.quantity : ℚ) ≥ 5000 then (0 : ℚ) else 199))| > 1 / 100 then
        .error .invalidPricing
      else
        .ok (updateFirst (fun q => q.id == r.productId)
          (fun q =>
            { q with
                stockQuantity := q.stockQuantity - (r.quantity : ℤ)
                isInStock := decide (p.stockQuantity - (r.quantity : ℤ) > 0) })
          products,
          { productId := p.id, quantity := r.quantity, price := p.price
            itemsTotal := p.price * (r.quantity : ℚ)
            shippingCost := (if p.price * (r.quantity : ℚ) ≥ 5000 then (0 : ℚ) else 199)
            totalAmount := p.price * (r.quantity : ℚ)
              + (if p.price * (r.quantity : ℚ) ≥ 5000 then (0 : ℚ) else 199) })) := by
    unfold quickBuy
    rw [hfind]
    dsimp only
    rw [if_neg hguard]
  rw [hred]
  by_cases hdev : |r.subtotal - p.price * (r.quantity : ℚ)| > 1 / 100
      ∨ |r.shipping - (if p.price * (r.quantity : ℚ) ≥ 5000 then (0 : ℚ) else 199)| > 1 / 100
      ∨ |r.total - (p.price * (r.quantity : ℚ)
          + (if p.price * (r.quantity : ℚ) ≥ 5000 then (0 : ℚ) else 199))| > 1 / 100
  · rw [if_pos hdev]
    refine ⟨⟨fun ⟨res, hres⟩ => absurd hres (by simp), fun hall => ?_⟩, fun _ => rfl⟩
    rcases hdev with hd | hd | hd
    · exact absurd hall.1 (not_le.mpr hd)
    · exact absurd hall.2.1 (not_le.mpr hd)
    · exact absurd hall.2.2 (not_le.mpr hd)
  · rw [if_neg hdev]
    push_neg at hdev
    exact ⟨⟨fun _ => ⟨hdev.1, hdev.2.1, hdev.2.2⟩, fun _ => ⟨_, rfl⟩⟩,
      fun h2 => absurd h2 (by push_neg; exact hdev)⟩

/-- The product bought through the quick-buy endpoint in the C10
witness. -/
def c10Product : Product :=
  { id := 1
    name := "Statue"
    price := 1000
    isActive := true
    stockQuantity := 5
    isInStock := true }

/-- A quick-buy request whose submitted pricing matches the server
recomputation exactly (2 units at 1000: subtotal 2000, below the 5000
free-shipping threshold so shipping 199, total 2199). -/
def c10GoodReq : QuickBuyRequest :=
  { productId := 1, quantity := 2, subtotal := 2000, shipping := 199, total := 2199 }

/-- The same request with a tampered total, off by 101. -/
def c10BadReq : QuickBuyRequest :=
  { productId := 1, quantity := 2, subtotal := 2000, shipping := 199, total := 2300 }

/-- Deviation bounds of the honest request, evaluated numerically. -/
theorem c10Good_bounds :
    |c10GoodReq.subtotal - c10Product.price * (c10GoodReq.quantity : ℚ)| ≤ 1 / 100
    ∧ |c10GoodReq.shipping - (if c10Product.price * (c10GoodReq.quantity : ℚ) ≥ 5000
        then (0 : ℚ) else 199)| ≤ 1 / 100
    ∧ |c10GoodReq.total - (c10Product.price * (c10GoodReq.quantity : ℚ)
        + (if c10Product.price * (c10GoodReq.quantity : ℚ) ≥ 5000
            then (0 : ℚ) else 199))| ≤ 1 / 100 := by
  norm_num [c10GoodReq, c10Product]

/-- The tampered total deviates by more than one hundredth. -/
theorem c10Bad_deviation :
    |c10BadReq.total - (c10Product.price * (c10BadReq.quantity : ℚ)
        + (if c10Product.price * (c10BadReq.quantity : ℚ) ≥ 5000
            then (0 : ℚ) else 199))| > 1 / 100 := by
  norm_num [c10BadReq, c10Product]

/-- The stock bound of the witness requests. -/
theorem c10_qty_le : ((2 : Nat) : ℤ) ≤ c10Product.stockQuantity := by decide

/-- Witness for C10: the honest request is accepted and the tampered
one is rejected with the invalid-pricing error. -/
theorem quickBuy_pricing_witness :
    (∃ res, quickBuy [c10Product] c10GoodReq = .ok res)
    ∧ quickBuy [c10Product] c10BadReq = .error .invalidPricing :=
  ⟨(quickBuy_pricing [c10Product] c10GoodReq c10Product rfl rfl c10_qty_le).1.mpr
      c10Good_bounds,
    (quickBuy_pricing [c10Product] c10BadReq c10Product rfl rfl c10_qty_le).2
      (Or.inr (Or.inr c10Bad_deviation))⟩

end SilverStatue
